import Mathlib

/-!
Shallow embedding of the zentest detection core, translated from
`src/lib/detector.ts`, `src/hooks/useSequenceDetector.ts` and the
configuration defaults in `src/state/useSettings.ts`.

Conventions of the embedding:
* JS `number` values are modelled as `ℚ` (the programs under scrutiny only
  perform field arithmetic and comparisons on them); counters stored in
  `Uint8Array`s are modelled as `ℕ`.
* A JS `number | null` ref is modelled as `Option ℚ`; JS truthiness tests on
  such refs (`last ? a : b`) are modelled by `jsTruthy`, which is false for
  `null` and for `0`, exactly as in JS.
* The value `Infinity` produced by `last ? now - last : Infinity` is modelled
  by `none` in an `Option ℚ`, with the comparison helpers `ltOpt`/`gtOpt`
  giving `Infinity` its IEEE comparison behaviour against finite numbers.
* React `useRef` cells and the `useState` record are flattened into one
  state structure; the per-frame pipeline mutates it exactly once per tick,
  as the source does.
-/

namespace Zen

/-- JS truthiness of a `number | null` value: `null` and `0` are falsy. -/
def jsTruthy : Option ℚ → Bool
  | none => false
  | some q => decide (q ≠ 0)

/-- Comparison `(n : ℕ) < e` where `e = none` stands for `Infinity` (the expected
reveal length is a natural count in the source, so the comparison lives in
`ℕ`). -/
def ltOpt (n : ℕ) : Option ℕ → Bool
  | none => true
  | some m => decide (n < m)

/-!
The standard `Rat` arithmetic operations in this toolchain are
`@[irreducible]`, which prevents the definitional evaluation that concrete
runs of the embedded code need (`decide`/`rfl`).  The `q*` helpers below are
reducible definitions of the same operations (each is proved equal to the
standard operator in the theorems section), and the embedded code is
written with them.
-/

/-- Kernel-computable `ℕ → ℚ` coercion. -/
def qn (n : ℕ) : ℚ := mkRat (Int.ofNat n) 1

/-- Kernel-computable `ℤ → ℚ` coercion. -/
def qi (i : ℤ) : ℚ := mkRat i 1

/-- Reducible rational addition. -/
def qadd (a b : ℚ) : ℚ := mkRat (a.num * b.den + b.num * a.den) (a.den * b.den)

/-- Reducible rational subtraction. -/
def qsub (a b : ℚ) : ℚ := mkRat (a.num * b.den - b.num * a.den) (a.den * b.den)

/-- Reducible rational multiplication. -/
def qmul (a b : ℚ) : ℚ := mkRat (a.num * b.num) (a.den * b.den)

/-- Reducible rational inverse. -/
def qinv (a : ℚ) : ℚ := Rat.divInt (Int.ofNat a.den) a.num

/-- Reducible rational division. -/
def qdiv (a b : ℚ) : ℚ := qmul a (qinv b)

/-- Reducible rational negation. -/
def qneg (a : ℚ) : ℚ := Rat.neg a

/-- Reducible rational `max`. -/
def qmax (a b : ℚ) : ℚ := if a ≤ b then b else a

/-- Reducible rational `min`. -/
def qmin (a b : ℚ) : ℚ := if a ≤ b then a else b

/-- Kernel-computable floor of a rational (`num`/`den` floor division). -/
def qfloor (q : ℚ) : ℤ := Int.fdiv q.num (Int.ofNat q.den)

/-- Kernel-computable ceiling of a rational. -/
def qceil (q : ℚ) : ℤ := -(qfloor (qneg q))

/-- Comparison `a > b` where `a = none` stands for `Infinity` and `b` is finite. -/
def gtOpt : Option ℚ → ℚ → Bool
  | none, _ => true
  | some a, b => decide (b < a)

/-- JS `Math.round`: round half toward positive infinity. -/
def jsRound (q : ℚ) : ℚ := qi (qfloor (qadd q (mkRat 1 2)))

/-- JS `x || d` on numbers: replace a falsy (zero) value by the default. -/
def jsOr (x d : ℚ) : ℚ := if x = 0 then d else x

/-- Function `clamp` from src/lib/detector.ts: `Math.max(min, Math.min(max, n))`. -/
def clamp (n lo hi : ℚ) : ℚ := qmax lo (qmin hi n)

/-- Function `luminance` from src/lib/detector.ts: `0.2126*r + 0.7152*g + 0.0722*b`. -/
def luminance (r g b : ℚ) : ℚ :=
  qadd (qadd (qmul (mkRat 2126 10000) r) (qmul (mkRat 7152 10000) g)) (qmul (mkRat 722 10000) b)

/-- Function `median` from src/lib/detector.ts: sort ascending (`(a, b) => a - b`),
take the middle element, or the mean of the two middle elements for even
length; `0` for the empty list.  (Any correct ascending sort produces the
same list of values; the embedding uses insertion sort, which evaluates
definitionally.) -/
def median (values : List ℚ) : ℚ :=
  if values.length = 0 then 0
  else
    let arr := values.insertionSort (· ≤ ·)
    let m := arr.length / 2
    if arr.length % 2 = 1 then arr.getD m 0
    else qdiv (qadd (arr.getD (m - 1) 0) (arr.getD m 0)) 2

/-- Round-cycle phase (`Phase` in src/types.ts). -/
inductive Phase
  | idle
  | armed
  | reveal
  | waitingInput
  | rearming
deriving DecidableEq, Repr

/-- Type `EventKind` from src/hooks/useSequenceDetector.ts. -/
inductive EventKind
  | reveal
  | input
deriving DecidableEq, Repr

/-- One confirmed event (`Step` in src/types.ts). -/
structure Step where
  row : ℕ
  col : ℕ
  t : ℚ
  frame : ℕ
  confidence : ℚ
deriving DecidableEq, Repr

/-- Type `DetectorConfig` (src/types.ts plus the advanced fields the hook reads,
provided by src/state/useSettings.ts and the capture panel). -/
structure DetectorConfig where
  thrHigh : ℚ
  thrLow : ℚ
  holdFrames : ℕ
  refractoryFrames : ℕ
  paddingPct : ℚ
  emaAlpha : ℚ
  appendAcrossRounds : Bool
  idleGapMs : ℚ
  autoRoundDetect : Bool
  revealMaxISI : ℚ
  clusterGapMs : ℚ
  inputTimeoutMs : ℚ
  rearmDelayMs : ℚ
  quickFlashEnabled : Bool
  energyWindow : ℚ
  energyScale : ℚ
  colorGateEnabled : Bool
  colorHueTol : ℚ
  colorSatMin : ℚ
  colorValMin : ℚ
  colorMinFracReveal : ℚ
  colorMinFracInput : ℚ
  useExpectedRevealLen : Bool
  initialRevealLen : ℕ
  revealHardTimeoutMs : ℚ
deriving DecidableEq, Repr

/-- The hook's state: the `useState` record of `useSequenceDetector` merged
with its `useRef` FSM trackers (`revealIndices`, `inputCount`,
`lastEventMs`, `lastRevealEventMs`). -/
structure DetectorState where
  running : Bool
  calibrating : Bool
  steps : List Step
  hotIndex : Option ℕ
  activeIndex : Option ℕ
  confidence : ℚ
  fps : ℚ
  frame : ℕ
  phase : Phase
  roundIndex : ℕ
  revealLen : ℕ
  inputProgress : ℕ
  status : String
  revealIndices : List ℕ
  inputCount : ℕ
  lastEventMs : Option ℚ
  lastRevealEventMs : Option ℚ
deriving DecidableEq, Repr

/-- The initial hook state (`useState` initializer plus initial refs). -/
def initState : DetectorState where
  running := false
  calibrating := false
  steps := []
  hotIndex := none
  activeIndex := none
  confidence := 0
  fps := 0
  frame := 0
  phase := .idle
  roundIndex := 0
  revealLen := 0
  inputProgress := 0
  status := "idle"
  revealIndices := []
  inputCount := 0
  lastEventMs := none
  lastRevealEventMs := none

/-- Function `reset` from useSequenceDetector.ts (lines 94-100). -/
def reset (st : DetectorState) : DetectorState :=
  { st with
    revealIndices := []
    inputCount := 0
    lastEventMs := none
    lastRevealEventMs := none
    steps := []
    activeIndex := none
    revealLen := 0
    inputProgress := 0
    phase := .idle
    roundIndex := 0
    status := "reset" }

/-- Function `arm` from useSequenceDetector.ts (lines 134-139). -/
def arm (st : DetectorState) : DetectorState :=
  { st with
    revealIndices := []
    inputCount := 0
    lastRevealEventMs := none
    phase := .armed
    revealLen := 0
    inputProgress := 0
    status := "armed" }

/-- The `case 'armed'` body of the `pushStep` switch (also reached from
`case 'idle'` by the unconditional fallthrough in the source). -/
def armedCase (cellIdx : ℕ) (now : ℚ) (st : DetectorState) : DetectorState :=
  { st with
    phase := .reveal
    revealIndices := [cellIdx]
    revealLen := 1
    inputCount := 0
    lastRevealEventMs := some now
    status := "reveal:1" }

/-- Function `pushStep` from useSequenceDetector.ts (lines 141-221): append the step
to the history, update the inter-event trackers, then run the FSM switch.
The `case 'idle'` arm has no `break`: execution always falls through into
the `case 'armed'` arm, whether or not `autoRoundDetect` is set. -/
def pushStep (cfg : DetectorConfig) (cols : ℕ) (st : DetectorState)
    (cellIdx : ℕ) (ts : ℚ) (frame : ℕ) (conf : ℚ) (kind : EventKind) :
    DetectorState :=
  let r := cellIdx / cols
  let c := cellIdx % cols
  let st := { st with
    steps := st.steps ++ [({ row := r, col := c, t := ts, frame := frame, confidence := conf } : Step)]
    activeIndex := some st.steps.length }
  let now := ts
  let last := st.lastEventMs
  let st := { st with lastEventMs := some now }
  let isi : Option ℚ := if jsTruthy last then some (qsub now (last.getD 0)) else none
  let expectedLen : Option ℕ :=
    if cfg.useExpectedRevealLen then some (cfg.initialRevealLen + st.roundIndex)
    else none
  let sinceLastReveal : Option ℚ :=
    if jsTruthy st.lastRevealEventMs then some (qsub now (st.lastRevealEventMs.getD 0)) else none
  match st.phase with
  | .idle =>
      let st : DetectorState :=
        if cfg.autoRoundDetect then { st with phase := .armed, status := "armed" } else st
      armedCase cellIdx now st
  | .armed => armedCase cellIdx now st
  | .reveal =>
      let isInputEvent := decide (kind = EventKind.input)
      let expectMore := ltOpt st.revealIndices.length expectedLen
      if expectMore then
        if gtOpt sinceLastReveal cfg.revealHardTimeoutMs then
          { st with
            phase := .waitingInput
            inputCount := 1
            inputProgress := 1
            status := "input:1/" ++ toString st.revealIndices.length }
        else
          let ri := st.revealIndices ++ [cellIdx]
          { st with
            revealIndices := ri
            revealLen := ri.length
            lastRevealEventMs := some now
            status := "reveal:" ++ toString ri.length }
      else
        if isInputEvent || gtOpt isi (qmax 650 cfg.clusterGapMs) then
          { st with
            phase := .waitingInput
            inputCount := 1
            inputProgress := 1
            status := "input:1/" ++ toString st.revealIndices.length }
        else
          let ri := st.revealIndices ++ [cellIdx]
          { st with
            revealIndices := ri
            revealLen := ri.length
            lastRevealEventMs := some now
            status := "reveal:" ++ toString ri.length }
  | .waitingInput =>
      let ic := st.inputCount + 1
      let st := { st with
        inputCount := ic
        inputProgress := ic
        status := "input:" ++ toString ic ++ "/" ++ toString st.revealIndices.length }
      if st.revealIndices.length ≤ ic then
        { st with phase := .rearming, status := "rearming" }
      else st
  | .rearming => st

/-- The body of the rearming timeout effect in useSequenceDetector.ts
(lines 224-243): fires `rearmDelayMs` after the phase becomes `rearming`.
Note that it clears `steps` unconditionally; `config.appendAcrossRounds` is
not consulted anywhere in this hook. -/
def rearmAdvance (st : DetectorState) : DetectorState :=
  { st with
    steps := []
    activeIndex := none
    roundIndex := st.roundIndex + 1
    revealLen := 0
    inputProgress := 0
    phase := .armed
    status := "armed"
    revealIndices := []
    inputCount := 0
    lastEventMs := none
    lastRevealEventMs := none }

/-- Feed a scripted list of confirmed events `(cellIdx, ts, frame, conf, kind)`
through `pushStep`. -/
def runEvents (cfg : DetectorConfig) (cols : ℕ) (st : DetectorState)
    (events : List (ℕ × ℚ × ℕ × ℚ × EventKind)) : DetectorState :=
  events.foldl (fun s e => pushStep cfg cols s e.1 e.2.1 e.2.2.1 e.2.2.2.1 e.2.2.2.2) st

/-- The current defaults from `defaultConfigForDifficulty` in
src/state/useSettings.ts, with the three advanced reveal-policy fields (not
present in the defaults record, tunable from the capture panel sliders) set
to mid-range panel values. -/
def defaultConfig : DetectorConfig where
  thrHigh := 10
  thrLow := 6
  holdFrames := 1
  refractoryFrames := 6
  paddingPct := 16
  emaAlpha := mkRat 1 5
  appendAcrossRounds := false
  idleGapMs := 2000
  autoRoundDetect := true
  revealMaxISI := 900
  clusterGapMs := 900
  inputTimeoutMs := 12000
  rearmDelayMs := 120
  quickFlashEnabled := true
  energyWindow := 5
  energyScale := mkRat 5 2
  colorGateEnabled := true
  colorHueTol := 40
  colorSatMin := mkRat 3 20
  colorValMin := mkRat 3 20
  colorMinFracReveal := mkRat 1 500
  colorMinFracInput := mkRat 1 500
  useExpectedRevealLen := true
  initialRevealLen := 3
  revealHardTimeoutMs := 1200

/-!
## The per-frame detection pipeline (`tick` in useSequenceDetector.ts)

The source keeps per-cell state in parallel typed arrays (`baseline`,
`deltaSmooth`, `hold`, `refractory`, `belowLow`, `energyBuf`, `energySum`);
the embedding gathers the cell-`i` slots of those arrays into one `Cell`
record and the arrays into a `List Cell` (the spec's own design note
recommends exactly this restructuring).  The flattened energy ring buffer
`energyBuf[k*N + i]` becomes the per-cell list `energyBuf` of length
`energyW`, indexed by the shared ring index `energyIdx`.
-/

/-- Per-cell runtime state of the detection pipeline. -/
structure Cell where
  baseline : ℚ
  deltaSmooth : ℚ
  hold : ℕ
  refractory : ℕ
  belowLow : Bool
  energyBuf : List ℚ
  energySum : ℚ
deriving DecidableEq, Repr

/-- All-zero cell, used as the `getD` fallback in statements. -/
def defCell : Cell :=
  { baseline := 0, deltaSmooth := 0, hold := 0, refractory := 0,
    belowLow := false, energyBuf := [], energySum := 0 }

/-- Window size `energyW.current = Math.max(2, Math.floor(config.energyWindow || 5))`
(set in the grid-change effect of the hook). -/
def energyW (cfg : DetectorConfig) : ℕ :=
  max 2 (Int.toNat (qfloor (jsOr cfg.energyWindow 5)))

/-- Threshold `energyThr = Math.max(1, (thrHigh - thrLow) * (energyScale || 2.5))`
(tick, line 308). -/
def energyThr (cfg : DetectorConfig) : ℚ :=
  qmax 1 (qmul (qsub cfg.thrHigh cfg.thrLow) (jsOr cfg.energyScale (mkRat 5 2)))

/-- The per-cell trigger threshold (tick, lines 324-328): `thrHigh`, lowered
to `max(thrLow + 1, round(thrHigh * 0.75))` when the color gate is on and one
matched fraction is "strong" (at least `max(3 * minFrac, 0.004)`). -/
def localThrOf (cfg : DetectorConfig) (fracR fracI : ℚ) : ℚ :=
  if cfg.colorGateEnabled then
    if decide (qmax (qmul cfg.colorMinFracReveal 3) (mkRat 4 1000) ≤ fracR)
        || decide (qmax (qmul cfg.colorMinFracInput 3) (mkRat 4 1000) ≤ fracI) then
      qmax (qadd cfg.thrLow 1) (jsRound (qmul cfg.thrHigh (mkRat 3 4)))
    else cfg.thrHigh
  else cfg.thrHigh

/-- The body of the per-cell trigger loop (tick, lines 311-356), for one
cell: hysteresis re-arm, refractory skip with re-arm bypass, color gate,
hold/energy trigger, firing (with confidence and kind) or hold update.
Returns the updated cell and `some (confidence, kind)` if a confirmed event
fired. -/
def cellTrigger (cfg : DetectorConfig) (phase : Phase) (eThr : ℚ) (c : Cell)
    (fracR fracI : ℚ) : Cell × Option (ℚ × EventKind) :=
  let v := c.deltaSmooth
  let c := if v < cfg.thrLow then { c with belowLow := true, hold := 0 } else c
  if 0 < c.refractory ∧ c.belowLow = false then
    ({ c with refractory := c.refractory - 1, hold := 0 }, none)
  else
    let matchReveal := !cfg.colorGateEnabled || decide (cfg.colorMinFracReveal ≤ fracR)
    let matchInput := !cfg.colorGateEnabled || decide (cfg.colorMinFracInput ≤ fracI)
    let passesColor := if cfg.colorGateEnabled then matchReveal || matchInput else true
    let localThr := localThrOf cfg fracR fracI
    let byHold := c.belowLow && decide (localThr ≤ v) && decide (cfg.holdFrames ≤ c.hold + 1)
    let byEnergy := cfg.quickFlashEnabled && c.belowLow && decide (eThr ≤ c.energySum)
    if passesColor && (byHold || byEnergy) then
      let kind : EventKind :=
        if cfg.colorGateEnabled then
          if matchInput && !matchReveal then .input
          else if matchReveal && !matchInput then .reveal
          else if phase = Phase.waitingInput then .input else .reveal
        else if phase = Phase.waitingInput then .input else .reveal
      let conf := clamp (qadd (qdiv (qsub v localThr) (qmax 1 localThr)) 1) 0 1
      ({ c with
          refractory := cfg.refractoryFrames
          belowLow := false
          hold := 0
          energySum := 0
          energyBuf := List.replicate c.energyBuf.length 0 }, some (conf, kind))
    else
      let c :=
        if !passesColor then { c with hold := 0 }
        else if decide (localThr ≤ v) then { c with hold := min 255 (c.hold + 1) }
        else c
      (c, none)

/-- The trigger loop over all cells in increasing index order, collecting
fired events `(cellIdx, confidence, kind)`. -/
def triggerAll (cfg : DetectorConfig) (phase : Phase) (eThr : ℚ) :
    List Cell → List (ℚ × ℚ) → ℕ → List Cell × List (ℕ × ℚ × EventKind)
  | c :: cs, f :: fs, i =>
      let r := cellTrigger cfg phase eThr c f.1 f.2
      let rest := triggerAll cfg phase eThr cs fs (i + 1)
      (r.1 :: rest.1,
        match r.2 with
        | some ck => (i, ck.1, ck.2) :: rest.2
        | none => rest.2)
  | cs, _, _ => (cs, [])

/-- One EMA step `baseline += α (raw − baseline)` (tick, line 284). -/
def baselineStep (α b l : ℚ) : ℚ := qadd b (qmul α (qsub l b))

/-- Stage 1 of the tick (lines 283-286): update every baseline and pair each
cell with its raw delta `lum − baseline`. -/
def updateBaselines (α : ℚ) (cells : List Cell) (lums : List ℚ) : List (Cell × ℚ) :=
  List.zipWith (fun c l =>
    let nb := baselineStep α c.baseline l
    ({ c with baseline := nb }, qsub l nb)) cells lums

/-- The raw per-cell deltas of this tick. -/
def rawDeltas (α : ℚ) (cells : List Cell) (lums : List ℚ) : List ℚ :=
  (updateBaselines α cells lums).map (·.2)

/-- The median-corrected per-cell deltas of this tick (lines 288-291). -/
def correctedDeltas (α : ℚ) (cells : List Cell) (lums : List ℚ) : List ℚ :=
  let ds := rawDeltas α cells lums
  let med := median ds
  ds.map (fun d => qsub d med)

/-- Stages 1-2 of the tick (lines 283-295): baselines, median correction and
the second EMA into `deltaSmooth`. -/
def smoothCells (α : ℚ) (cells : List Cell) (lums : List ℚ) : List Cell :=
  let cl := updateBaselines α cells lums
  let med := median (cl.map (·.2))
  cl.map (fun p =>
    { p.1 with deltaSmooth := qadd (qmul (qsub 1 α) p.1.deltaSmooth) (qmul α (qsub p.2 med)) })

/-- Stage 3 of the tick (lines 300-307): push `max(0, deltaSmooth − thrLow)`
into the cell's ring slot `idx` and maintain the running sum. -/
def energyStep (cfg : DetectorConfig) (idx : ℕ) (c : Cell) : Cell :=
  let pos := qmax 0 (qsub c.deltaSmooth cfg.thrLow)
  let old := c.energyBuf.getD idx 0
  { c with
    energyBuf := c.energyBuf.set idx pos
    energySum := qadd c.energySum (qsub pos old) }

/-- Detector array state: the per-cell records plus the shared ring index. -/
structure DetArrays where
  cells : List Cell
  energyIdx : ℕ
deriving DecidableEq, Repr

/-- One full detector tick (lines 257-356) on the per-cell arrays: baseline
EMA, median drift correction, smoothing, energy ring update, then the
per-cell trigger loop.  `lums`, `fracR`, `fracI` are this tick's sampler
outputs; `phase` is the FSM phase the trigger loop reads for event kinds.
Returns the updated arrays and the fired events in cell-index order. -/
def detTick (cfg : DetectorConfig) (phase : Phase) (st : DetArrays)
    (lums fracR fracI : List ℚ) : DetArrays × List (ℕ × ℚ × EventKind) :=
  let α := clamp cfg.emaAlpha (mkRat 1 100) (mkRat 99 100)
  let cells2 := smoothCells α st.cells lums
  let cells3 := cells2.map (energyStep cfg st.energyIdx)
  let nextIdx := (st.energyIdx + 1) % energyW cfg
  let r := triggerAll cfg phase (energyThr cfg) cells3 (fracR.zip fracI) 0
  ({ cells := r.1, energyIdx := nextIdx }, r.2)

/-- The cell-`i` slice of stages 3-4 of one tick, with the cell's computed
`deltaSmooth` value `v` taken as input: energy ring push at the current ring
slot, then the trigger-loop body.  This is what one cell of `detTick`
undergoes each frame once its smoothed signal is fixed. -/
def cellFrame (cfg : DetectorConfig) (phase : Phase) (p : Cell × ℕ)
    (inp : ℚ × ℚ × ℚ) : (Cell × ℕ) × Option (ℚ × EventKind) :=
  let c := { p.1 with deltaSmooth := inp.1 }
  let c := energyStep cfg p.2 c
  let r := cellTrigger cfg phase (energyThr cfg) c inp.2.1 inp.2.2
  ((r.1, (p.2 + 1) % energyW cfg), r.2)

/-- Iterate `cellFrame` over a list of per-tick inputs
`(deltaSmooth, fracReveal, fracInput)`, recording for each tick whether a
confirmed event fired. -/
def runCellFrames (cfg : DetectorConfig) (phase : Phase) :
    Cell × ℕ → List (ℚ × ℚ × ℚ) → (Cell × ℕ) × List Bool
  | p, [] => (p, [])
  | p, inp :: rest =>
      let r := cellFrame cfg phase p inp
      let rr := runCellFrames cfg phase r.1 rest
      (rr.1, r.2.isSome :: rr.2)

/-- The accumulation loop of `calibrate` (lines 114-120): frames with no
video (`none`) are skipped without incrementing the count. -/
def calibAccum : List (Option (List ℚ)) → List ℚ → ℕ → List ℚ × ℕ
  | [], accum, count => (accum, count)
  | none :: fs, accum, count => calibAccum fs accum count
  | some lums :: fs, accum, count =>
      calibAccum fs (List.zipWith qadd accum lums) (count + 1)

/-- Function `calibrate` (lines 109-132): accumulate per-cell luminance over the
sampled frames, set every baseline to `accum[i] / (count || 1)` and fully
reset the per-cell hysteresis/refractory/energy state (`belowLow = true`).
`n = rows * cols`, `w = energyW`. -/
def calibrate (n w : ℕ) (frames : List (Option (List ℚ))) : List Cell :=
  let r := calibAccum frames (List.replicate n 0) 0
  let avg : ℕ := if r.2 = 0 then 1 else r.2
  r.1.map (fun a =>
    { baseline := qdiv a (qn avg)
      deltaSmooth := 0
      hold := 0
      refractory := 0
      belowLow := true
      energySum := 0
      energyBuf := List.replicate w 0 })

/-- The claim's confidence formula, written from the spec sentence
`confidence = clamp((v − thrHigh)/max(1, thrHigh), 0, 1)` (for comparison
with what the code emits). -/
def confSpecFormula (v thrHigh : ℚ) : ℚ :=
  clamp (qdiv (qsub v thrHigh) (qmax 1 thrHigh)) 0 1

/-- Default configuration with the color gate and quick-flash path off
(both are independent toggles in the panel). -/
def cfgPlain : DetectorConfig :=
  { defaultConfig with colorGateEnabled := false, quickFlashEnabled := false }

/-- A freshly calibrated cell (zero baseline variant): re-armed, empty
5-slot energy ring. -/
def cellZero : Cell :=
  { baseline := 0, deltaSmooth := 0, hold := 0, refractory := 0,
    belowLow := true, energyBuf := List.replicate 5 0, energySum := 0 }

/-- State `cellZero` after a confirmed event has fired (not re-armed). -/
def cellFired : Cell := { cellZero with belowLow := false }

/-- The claim's scripted stream: 3 reveal-kind events at t = 0, 150, 300 ms,
then a 900 ms gap, then 3 input-kind events at 1200, 1350, 1500 ms. -/
def c1LiteralEvents : List (ℕ × ℚ × ℕ × ℚ × EventKind) :=
  [(0, 0, 1, 1, .reveal), (1, 150, 2, 1, .reveal), (2, 300, 3, 1, .reveal),
   (3, 1200, 4, 1, .input), (4, 1350, 5, 1, .input), (5, 1500, 6, 1, .input)]

/-- The same stream shifted to start at t = 1000 ms. -/
def c1ShiftedEvents : List (ℕ × ℚ × ℕ × ℚ × EventKind) :=
  [(0, 1000, 1, 1, .reveal), (1, 1150, 2, 1, .reveal), (2, 1300, 3, 1, .reveal),
   (3, 2200, 4, 1, .input), (4, 2350, 5, 1, .input), (5, 2500, 6, 1, .input)]

/-- A state in the `rearming` phase at the end of a completed round, with one
recorded step. -/
def c2State : DetectorState :=
  { initState with
    phase := .rearming
    steps := [{ row := 0, col := 0, t := 1000, frame := 1, confidence := 1 }]
    revealIndices := [0]
    inputCount := 1
    revealLen := 1
    inputProgress := 1 }

/-- The default configuration with `autoRoundDetect` disabled. -/
def cfgNoAuto : DetectorConfig := { defaultConfig with autoRoundDetect := false }

def c6cellA : Cell := { cellZero with baseline := 5 }

def c6cellB : Cell := { cellZero with baseline := 9 }

def frames7 : List (Option (List ℚ)) := [some [10, 20], none, some [11, 19], some [12, 21]]

/-!
## The grid samplers (src/lib/detector.ts)

`sampleGridLuminance` / `sampleGridColorFractions` read pixels of the video
frame after drawing its ROI onto a downsampled scratch canvas
(`drawImage` + `getImageData`).  The browser-produced byte array is modelled
as a total oracle `data : ℤ → ℚ` indexed by byte offset (RGBA layout, as the
source indexes it); the geometry, guards, sampling loops and counting are
embedded exactly.
-/

/-- Normalized rectangle (`Rect` in src/types.ts). -/
structure Rect where
  x : ℚ
  y : ℚ
  width : ℚ
  height : ℚ
deriving DecidableEq, Repr

/-- A video frame: its queryable dimensions (possibly undefined) and the
pixel-byte oracle for the scratch canvas image of its ROI. -/
structure Frame where
  videoWidth : Option ℚ
  videoHeight : Option ℚ
  data : ℤ → ℚ

/-- JS `Math.round` producing an integer pixel coordinate. -/
def jsRoundZ (q : ℚ) : ℤ := qfloor (qadd q (mkRat 1 2))

/-- Reducible integer `max`. -/
def imax (a b : ℤ) : ℤ := if a ≤ b then b else a

/-- Absolute value (`Math.abs`). -/
def qabs (q : ℚ) : ℚ := if q < 0 then qneg q else q

/-- Truncating division of a rational to an integer (toward zero). -/
def qtrunc (q : ℚ) : ℤ := Int.tdiv q.num (Int.ofNat q.den)

/-- JS `%` on numbers (`fmod`, sign of the dividend). -/
def jsFmod (a b : ℚ) : ℚ := qsub a (qmul b (qi (qtrunc (qdiv a b))))

/-- Integer pixel rectangle. -/
structure PixelRect where
  x : ℤ
  y : ℤ
  width : ℤ
  height : ℤ
deriving DecidableEq, Repr

/-- Function `normToVideoRect` from src/lib/detector.ts. -/
def normToVideoRect (roi : Rect) (vw vh : ℚ) : PixelRect :=
  { x := jsRoundZ (qmul roi.x vw)
    y := jsRoundZ (qmul roi.y vh)
    width := jsRoundZ (qmul roi.width vw)
    height := jsRoundZ (qmul roi.height vh) }

/-- The downsample cap (`maxSide = 480`) applied to the drawn ROI. -/
def downsample (w h : ℤ) : ℤ × ℤ :=
  if 480 < imax w h then
    let s := qdiv 480 (qi (imax w h))
    (imax 1 (jsRoundZ (qmul (qi w) s)), imax 1 (jsRoundZ (qmul (qi h) s)))
  else (w, h)

/-- The sample positions of a strided loop `for (p = a; p < b; p += s)`. -/
def stepRange (a b : ℤ) (s : ℕ) : List ℤ :=
  (List.range (((b - a).toNat + s - 1) / s)).map (fun k => a + Int.ofNat k * Int.ofNat s)

/-- The per-cell luminance scan (inner loops of `sampleGridLuminance`):
accumulate the luminance of every sampled pixel and the sample count. -/
def cellScanLum (data : ℤ → ℚ) (width : ℤ) (ys xs : List ℤ) : ℚ × ℕ :=
  ys.foldl (fun acc y =>
    xs.foldl (fun acc2 x =>
      let off := y * width * 4 + x * 4
      (qadd acc2.1 (luminance (data off) (data (off + 1)) (data (off + 2))), acc2.2 + 1))
      acc) (0, 0)

/-- Function `sampleGridLuminance` from src/lib/detector.ts: per-cell average
luminance inside the ROI; all-zero result when the frame has no defined
pixel dimensions (`videoWidth || 0` / `videoHeight || 0` falsy). -/
def sampleGridLuminance (frame : Frame) (roi : Rect) (rows cols : ℕ)
    (paddingPct : ℚ) : List ℚ :=
  let vw := frame.videoWidth.getD 0
  let vh := frame.videoHeight.getD 0
  if vw = 0 ∨ vh = 0 then List.replicate (rows * cols) 0
  else
    let r := normToVideoRect roi vw vh
    let d := downsample r.width r.height
    let width := d.1
    let height := d.2
    let cellW := qdiv (qi width) (qn cols)
    let cellH := qdiv (qi height) (qn rows)
    let padX := qmul (qmul (qdiv paddingPct 100) cellW) (mkRat 1 2)
    let padY := qmul (qmul (qdiv paddingPct 100) cellH) (mkRat 1 2)
    let step := (imax 1 (qfloor (qdiv (qmin cellW cellH) 10))).toNat
    List.flatten ((List.range rows).map (fun rI =>
      (List.range cols).map (fun cI =>
        let y0 := qfloor (qadd (qmul (qn rI) cellH) padY)
        let y1 := qceil (qsub (qmul (qn (rI + 1)) cellH) padY)
        let x0 := qfloor (qadd (qmul (qn cI) cellW) padX)
        let x1 := qceil (qsub (qmul (qn (cI + 1)) cellW) padX)
        let sc := cellScanLum frame.data width (stepRange y0 y1 step) (stepRange x0 x1 step)
        if sc.2 = 0 then 0 else qdiv sc.1 (qn sc.2))))

/-- Function `rgbToHsv` from src/lib/detector.ts. -/
def rgbToHsv (r g b : ℚ) : ℚ × ℚ × ℚ :=
  let r1 := qdiv r 255
  let g1 := qdiv g 255
  let b1 := qdiv b 255
  let mx := qmax r1 (qmax g1 b1)
  let mn := qmin r1 (qmin g1 b1)
  let d := qsub mx mn
  let h :=
    if d = 0 then 0
    else
      let h0 :=
        if mx = r1 then jsFmod (qdiv (qsub g1 b1) d) 6
        else if mx = g1 then qadd (qdiv (qsub b1 r1) d) 2
        else qadd (qdiv (qsub r1 g1) d) 4
      let h1 := qmul h0 60
      if h1 < 0 then qadd h1 360 else h1
  let s := if mx = 0 then 0 else qdiv d mx
  (h, s, mx)

/-- Function `hueDistDeg` from src/lib/detector.ts. -/
def hueDistDeg (a b : ℚ) : ℚ :=
  let d := jsFmod (qabs (qsub a b)) 360
  if 180 < d then qsub 360 d else d

/-- The color-gate options (`opts` of `sampleGridColorFractions`). -/
structure ColorOpts where
  revealRgb : ℚ × ℚ × ℚ
  inputRgb : ℚ × ℚ × ℚ
  hueTolDeg : ℚ
  satMin : ℚ
  valMin : ℚ
deriving DecidableEq, Repr

/-- One sampled pixel of the color scan: always count it, and count a
reveal/input hit when saturation/value pass the minimums and the hue is
within tolerance of the respective target. -/
def colorPointStep (data : ℤ → ℚ) (width : ℤ) (opts : ColorOpts) (tR tI : ℚ)
    (acc : ℕ × ℕ × ℕ) (y x : ℤ) : ℕ × ℕ × ℕ :=
  let off := y * width * 4 + x * 4
  let hsv := rgbToHsv (data off) (data (off + 1)) (data (off + 2))
  let p := opts.satMin ≤ hsv.2.1 ∧ opts.valMin ≤ hsv.2.2
  (acc.1 + 1,
   (if p ∧ hueDistDeg hsv.1 tR ≤ opts.hueTolDeg then acc.2.1 + 1 else acc.2.1),
   (if p ∧ hueDistDeg hsv.1 tI ≤ opts.hueTolDeg then acc.2.2 + 1 else acc.2.2))

/-- The per-cell color scan (inner loops of `sampleGridColorFractions`):
`(sample count, reveal hits, input hits)`. -/
def cellScanColor (data : ℤ → ℚ) (width : ℤ) (opts : ColorOpts) (tR tI : ℚ)
    (ys xs : List ℤ) : ℕ × ℕ × ℕ :=
  ys.foldl (fun acc y =>
    xs.foldl (fun acc2 x => colorPointStep data width opts tR tI acc2 y x) acc) (0, 0, 0)

/-- Function `sampleGridColorFractions` from src/lib/detector.ts: per-cell fractions
of sampled pixels matching the reveal/input target colors; all-zero arrays
when the frame has no defined pixel dimensions. -/
def sampleGridColorFractions (frame : Frame) (roi : Rect) (rows cols : ℕ)
    (paddingPct : ℚ) (opts : ColorOpts) : List ℚ × List ℚ :=
  let vw := frame.videoWidth.getD 0
  let vh := frame.videoHeight.getD 0
  if vw = 0 ∨ vh = 0 then
    (List.replicate (rows * cols) 0, List.replicate (rows * cols) 0)
  else
    let r := normToVideoRect roi vw vh
    let d := downsample r.width r.height
    let width := d.1
    let height := d.2
    let cellW := qdiv (qi width) (qn cols)
    let cellH := qdiv (qi height) (qn rows)
    let padX := qmul (qmul (qdiv paddingPct 100) cellW) (mkRat 1 2)
    let padY := qmul (qmul (qdiv paddingPct 100) cellH) (mkRat 1 2)
    let targetReveal := rgbToHsv opts.revealRgb.1 opts.revealRgb.2.1 opts.revealRgb.2.2
    let targetInput := rgbToHsv opts.inputRgb.1 opts.inputRgb.2.1 opts.inputRgb.2.2
    let step := (imax 1 (qfloor (qdiv (qmin cellW cellH) 10))).toNat
    let fracs := List.flatten ((List.range rows).map (fun rI =>
      (List.range cols).map (fun cI =>
        let y0 := qfloor (qadd (qmul (qn rI) cellH) padY)
        let y1 := qceil (qsub (qmul (qn (rI + 1)) cellH) padY)
        let x0 := qfloor (qadd (qmul (qn cI) cellW) padX)
        let x1 := qceil (qsub (qmul (qn (cI + 1)) cellW) padX)
        let sc := cellScanColor frame.data width opts targetReveal.1 targetInput.1
          (stepRange y0 y1 step) (stepRange x0 x1 step)
        (qdiv (qn sc.2.1) (qn (max 1 sc.1)), qdiv (qn sc.2.2) (qn (max 1 sc.1))))))
    (fracs.map Prod.fst, fracs.map Prod.snd)

/-- A frame with no defined pixel dimensions and a black data oracle. -/
def frameNoDims : Frame :=
  { videoWidth := none, videoHeight := some 480, data := fun _ => 0 }

/-- The default ROI from src/state/useSettings.ts. -/
def roiDefault : Rect := { x := mkRat 1 5, y := mkRat 1 5, width := mkRat 3 5, height := mkRat 3 5 }

/-- Color options used by the witness. -/
def copts0 : ColorOpts :=
  { revealRgb := (26, 160, 133), inputRgb := (39, 173, 97),
    hueTolDeg := 40, satMin := mkRat 3 20, valMin := mkRat 3 20 }

/-! ## Theorems -/

theorem qn_eq (n : ℕ) : qn n = (n : ℚ) := by
  simp [qn, Rat.mkRat_eq_div]

theorem qi_eq (i : ℤ) : qi i = (i : ℚ) := by
  simp [qi, Rat.mkRat_eq_div]

theorem qadd_eq (a b : ℚ) : qadd a b = a + b := (Rat.add_def' a b).symm

theorem qsub_eq (a b : ℚ) : qsub a b = a - b := (Rat.sub_def' a b).symm

theorem qmul_eq (a b : ℚ) : qmul a b = a * b := by
  rw [qmul, Rat.mul_def, Rat.normalize_eq_mkRat]

theorem qinv_eq (a : ℚ) : qinv a = a⁻¹ := by
  rw [qinv, show (Int.ofNat a.den) = (a.den : ℤ) from rfl, ← Rat.inv_def]
  rfl

theorem qdiv_eq (a b : ℚ) : qdiv a b = a / b := by
  rw [qdiv, qmul_eq, qinv_eq, div_eq_mul_inv]

theorem qneg_eq (a : ℚ) : qneg a = -a := rfl

theorem qmax_eq (a b : ℚ) : qmax a b = max a b := (max_def a b).symm

theorem qmin_eq (a b : ℚ) : qmin a b = min a b := (min_def a b).symm

/-- C1, as stated, is false: on the stream with first event at t = 0, the JS
truthiness guard `lastRevealEventMs.current ? … : Infinity` treats the
timestamp 0 as "no previous reveal event", so the second event at t = 150
already sees an infinite since-last-reveal gap and moves the FSM to
`waiting-input`; the run ends in `rearming` with `revealIndices.length = 1`
and `inputProgress = 2`, not 3 and 3. -/
theorem C1_counterexample :
    ¬ ((runEvents defaultConfig 6 (arm initState) c1LiteralEvents).phase = Phase.rearming ∧
       (runEvents defaultConfig 6 (arm initState) c1LiteralEvents).revealIndices.length = 3 ∧
       (runEvents defaultConfig 6 (arm initState) c1LiteralEvents).inputProgress = 3) := by
  decide

/-- C1 amended: on the same scripted stream shifted to start at a nonzero
timestamp (t = 1000, 1150, 1300, then a 900 ms gap, then input events at
2200, 2350, 2500), under the default configuration (expected-reveal-length
policy on with `initialRevealLen = 3`), the FSM does end in `rearming` with
`revealIndices.length = 3` and `inputProgress = 3`. -/
theorem C1_amended :
    (runEvents defaultConfig 6 (arm initState) c1ShiftedEvents).phase = Phase.rearming ∧
    (runEvents defaultConfig 6 (arm initState) c1ShiftedEvents).revealIndices = [0, 1, 2] ∧
    (runEvents defaultConfig 6 (arm initState) c1ShiftedEvents).inputProgress = 3 := by
  refine ⟨rfl, rfl, rfl⟩

/-- C2 failing input evaluated: the rearm timeout body (lines 224-243 of the
hook) clears the Step history unconditionally — `config.appendAcrossRounds`
is never consulted by this hook, so even with `appendAcrossRounds = true`
the prior round's steps are lost.  (The embedded `rearmAdvance` takes no
configuration argument precisely because the source reads none; the rest of
the claim — phase back to `armed`, `roundIndex` incremented,
`revealIndices`/`inputCount` reset — does hold.) -/
theorem C2_bug :
    (rearmAdvance c2State).steps = [] ∧
    (rearmAdvance c2State).phase = Phase.armed ∧
    (rearmAdvance c2State).roundIndex = 1 ∧
    (rearmAdvance c2State).revealIndices = [] ∧
    (rearmAdvance c2State).inputCount = 0 := by
  refine ⟨rfl, rfl, rfl, rfl, rfl⟩

/-- C3 failing input evaluated: with `autoRoundDetect = false` and the FSM in
`idle`, a confirmed event is NOT ignored: the `case 'idle'` arm of the
`pushStep` switch has no `break`, so control falls through into the
`case 'armed'` arm and the event starts a reveal (`phase = reveal`,
`revealIndices = [0]`, `revealLen = 1`).  The `if (config.autoRoundDetect)`
guard in the `idle` arm is dead code: its phase/status assignment is
immediately overwritten by the fallthrough. -/
theorem C3_bug :
    (pushStep cfgNoAuto 6 initState 0 1000 1 1 EventKind.reveal).phase = Phase.reveal ∧
    (pushStep cfgNoAuto 6 initState 0 1000 1 1 EventKind.reveal).revealIndices = [0] ∧
    (pushStep cfgNoAuto 6 initState 0 1000 1 1 EventKind.reveal).revealLen = 1 := by
  refine ⟨rfl, rfl, rfl⟩

/-- C9: `reset` is idempotent — calling it twice leaves exactly the state a
single call produces: `phase = idle`, `roundIndex = 0`, `steps = []`,
`revealLen = 0`, `inputProgress = 0`, and the internal round trackers
(`revealIndices`, `inputCount`, `lastEventMs`, `lastRevealEventMs`) cleared. -/
theorem C9_reset_idempotent (st : DetectorState) : reset (reset st) = reset st := rfl

/-! ### Helper lemmas about the trigger loop -/

theorem clamp01_bounds (x : ℚ) : 0 ≤ clamp x 0 1 ∧ clamp x 0 1 ≤ 1 := by
  unfold clamp
  rw [qmax_eq, qmin_eq]
  refine ⟨le_max_left 0 _, max_le (by norm_num) (min_le_left _ _)⟩

theorem cellTrigger_fire_conf {cfg : DetectorConfig} {phase : Phase} {eThr : ℚ} {c : Cell}
    {fracR fracI conf : ℚ} {kind : EventKind}
    (h : (cellTrigger cfg phase eThr c fracR fracI).2 = some (conf, kind)) :
    conf = clamp (qadd (qdiv (qsub c.deltaSmooth (localThrOf cfg fracR fracI))
      (qmax 1 (localThrOf cfg fracR fracI))) 1) 0 1 := by
  simp only [cellTrigger] at h
  repeat' split at h
  all_goals simp_all

theorem triggerAll_conf_bounds (cfg : DetectorConfig) (phase : Phase) (eThr : ℚ) :
    ∀ (cells : List Cell) (fracs : List (ℚ × ℚ)) (i : ℕ) (e : ℕ × ℚ × EventKind),
      e ∈ (triggerAll cfg phase eThr cells fracs i).2 → 0 ≤ e.2.1 ∧ e.2.1 ≤ 1 := by
  intro cells
  induction cells with
  | nil => intro fracs i e he; simp [triggerAll] at he
  | cons c cs ih =>
    intro fracs i e he
    cases fracs with
    | nil => simp [triggerAll] at he
    | cons f fs =>
      simp only [triggerAll] at he
      rcases hck : (cellTrigger cfg phase eThr c f.1 f.2).2 with _ | ck
      · rw [hck] at he
        exact ih fs (i + 1) e he
      · rw [hck] at he
        simp only [List.mem_cons] at he
        rcases he with he | he
        · have hfc : (cellTrigger cfg phase eThr c f.1 f.2).2 = some (ck.1, ck.2) := by
            rw [hck]
          have := cellTrigger_fire_conf hfc
          subst he
          simp only []
          rw [this]
          exact clamp01_bounds _
        · exact ih fs (i + 1) e he

theorem cellTrigger_not_rearmed {cfg : DetectorConfig} {phase : Phase} {eThr : ℚ} {c : Cell}
    {fracR fracI : ℚ} (h : c.belowLow = false) (hv : ¬(c.deltaSmooth < cfg.thrLow)) :
    (cellTrigger cfg phase eThr c fracR fracI).2 = none ∧
    (cellTrigger cfg phase eThr c fracR fracI).1.belowLow = false := by
  simp only [cellTrigger, if_neg hv, h]
  repeat' split
  all_goals simp_all

theorem cellFrame_not_rearmed {cfg : DetectorConfig} {phase : Phase} {p : Cell × ℕ}
    {inp : ℚ × ℚ × ℚ} (h : p.1.belowLow = false) (hv : ¬(inp.1 < cfg.thrLow)) :
    (cellFrame cfg phase p inp).2 = none ∧
    (cellFrame cfg phase p inp).1.1.belowLow = false := by
  have hc : ({ p.1 with deltaSmooth := inp.1 } : Cell).belowLow = false := h
  have hes : (energyStep cfg p.2 { p.1 with deltaSmooth := inp.1 }).belowLow = false := hc
  have hds : (energyStep cfg p.2 { p.1 with deltaSmooth := inp.1 }).deltaSmooth = inp.1 := rfl
  have h2 := @cellTrigger_not_rearmed cfg phase (energyThr cfg)
    (energyStep cfg p.2 { p.1 with deltaSmooth := inp.1 }) inp.2.1 inp.2.2 hes
    (by rw [hds]; exact hv)
  exact ⟨h2.1, h2.2⟩

/-- C5, as stated, is false in its refractory half: with the default
thresholds (`thrLow = 6`, `thrHigh = 10`, `holdFrames = 1`,
`refractoryFrames = 6`, gates off), a cell that fires at tick 0
(`deltaSmooth = 12`), dips below `thrLow` at tick 1 (`deltaSmooth = 0`) and
rises again at tick 2 fires a second confirmed event at tick 2 while its
refractory counter is still 6 (it never reached zero): the re-arm
(`belowLow`) bypasses the refractory cooldown, so the claim's AND of the two
conditions does not hold on the code. -/
theorem C5_counterexample :
    (runCellFrames cfgPlain Phase.armed (cellZero, 0) [(12,0,0), (0,0,0), (12,0,0)]).2
        = [true, false, true] ∧
    (runCellFrames cfgPlain Phase.armed (cellZero, 0) [(12,0,0)]).1.1.refractory = 6 ∧
    (runCellFrames cfgPlain Phase.armed (cellZero, 0) [(12,0,0), (0,0,0)]).1.1.refractory = 6 ∧
    cfgPlain.refractoryFrames = 6 := by
  refine ⟨by decide, by decide, by decide, by decide⟩

/-- C5 amended (the half that does hold, for every configuration): once a
confirmed event has fired for a cell (`belowLow = false`), no further event
fires for that cell until its `deltaSmooth` has dropped below `thrLow` at
least once — in particular a sustained high signal produces exactly one
event.  (Refractory expiry alone is NOT additionally required: dropping
below `thrLow` bypasses the remaining cooldown, per the counterexample.) -/
theorem C5_amended (cfg : DetectorConfig) (phase : Phase) :
    ∀ (inputs : List (ℚ × ℚ × ℚ)) (p : Cell × ℕ) (j : ℕ),
      p.1.belowLow = false →
      (runCellFrames cfg phase p inputs).2.getD j false = true →
      ∃ k, k ≤ j ∧ (inputs.getD k (0,0,0)).1 < cfg.thrLow := by
  intro inputs
  induction inputs with
  | nil =>
    intro p j h0 hfire
    simp [runCellFrames] at hfire
  | cons inp rest ih =>
    intro p j h0 hfire
    by_cases hv : inp.1 < cfg.thrLow
    · exact ⟨0, Nat.zero_le j, by simpa using hv⟩
    · have hcf := @cellFrame_not_rearmed cfg phase p inp h0 hv
      simp only [runCellFrames] at hfire
      rw [hcf.1] at hfire
      cases j with
      | zero => simp [Option.isSome] at hfire
      | succ j =>
        have hfire2 : (runCellFrames cfg phase (cellFrame cfg phase p inp).1 rest).2.getD j false
            = true := by simpa using hfire
        obtain ⟨k, hk, hlt⟩ := ih (cellFrame cfg phase p inp).1 j hcf.2 hfire2
        exact ⟨k + 1, Nat.succ_le_succ hk, by simpa using hlt⟩

/-- Witness for `C5_amended`: a cell with `belowLow = false` that dips below
`thrLow` at tick 0 and fires at tick 1. -/
theorem C5_witness :
    cellFired.belowLow = false ∧
    (runCellFrames cfgPlain Phase.armed (cellFired, 0) [(0,0,0), (12,0,0)]).2.getD 1 false
        = true ∧
    (∃ k, k ≤ 1 ∧ (([((0:ℚ),(0:ℚ),(0:ℚ)), (12,0,0)] : List (ℚ × ℚ × ℚ)).getD k (0,0,0)).1
        < cfgPlain.thrLow) :=
  ⟨rfl, by decide,
    C5_amended cfgPlain Phase.armed [(0,0,0), (12,0,0)] (cellFired, 0) 1 rfl (by decide)⟩

/-- C4, as stated, is false: with the color gate off (`localThr = thrHigh =
10`), two cells at steady zero baseline and raw luminances `[150, 0]`
produce `deltaSmooth = [12, -12]`; cell 0 fires via the hold path and the
code emits confidence `clamp((12−10)/10 + 1, 0, 1) = 1` (the `+ 1` offset is
applied on every path, not only on the energy path), while the claim's
formula gives `clamp((12−10)/10, 0, 1) = 1/5`. -/
theorem C4_counterexample :
    (detTick cfgPlain Phase.armed ⟨[cellZero, cellZero], 0⟩ [150, 0] [0, 0] [0, 0]).2
        = [(0, 1, EventKind.reveal)] ∧
    ((detTick cfgPlain Phase.armed ⟨[cellZero, cellZero], 0⟩ [150, 0] [0, 0]
        [0, 0]).1.cells.getD 0 defCell).deltaSmooth = 12 ∧
    confSpecFormula 12 cfgPlain.thrHigh ≠ 1 := by
  refine ⟨by decide, by decide, by decide⟩

/-- C4 amended: on every confirmed event the emitted confidence equals
`clamp((v − localThr)/max(1, localThr) + 1, 0, 1)`, where `v` is the firing
cell's `deltaSmooth` and `localThr` is `thrHigh` possibly lowered by the
color-strong rule — the `+ 1` offset applies unconditionally (so hold-path
events always report confidence 1); in particular every emitted confidence
lies in `[0, 1]`. -/
theorem C4_amended :
    (∀ (cfg : DetectorConfig) (phase : Phase) (st : DetArrays) (lums fracR fracI : List ℚ)
        (e : ℕ × ℚ × EventKind), e ∈ (detTick cfg phase st lums fracR fracI).2 →
        0 ≤ e.2.1 ∧ e.2.1 ≤ 1) ∧
    (∀ (cfg : DetectorConfig) (phase : Phase) (eThr : ℚ) (c : Cell) (fracR fracI conf : ℚ)
        (kind : EventKind), (cellTrigger cfg phase eThr c fracR fracI).2 = some (conf, kind) →
        conf = clamp (qadd (qdiv (qsub c.deltaSmooth (localThrOf cfg fracR fracI))
          (qmax 1 (localThrOf cfg fracR fracI))) 1) 0 1) := by
  constructor
  · intro cfg phase st lums fracR fracI e he
    simp only [detTick] at he
    exact triggerAll_conf_bounds cfg phase (energyThr cfg) _ _ 0 e he
  · intro cfg phase eThr c fracR fracI conf kind h
    exact cellTrigger_fire_conf h

/-- Witness for `C4_amended`: the event emitted in the counterexample run
has confidence 1, which lies in `[0, 1]`. -/
theorem C4_witness :
    ((0, (1:ℚ), EventKind.reveal)
        ∈ (detTick cfgPlain Phase.armed ⟨[cellZero, cellZero], 0⟩ [150, 0] [0, 0] [0, 0]).2) ∧
    (0 ≤ (1:ℚ) ∧ (1:ℚ) ≤ 1) :=
  ⟨by decide,
    C4_amended.1 cfgPlain Phase.armed ⟨[cellZero, cellZero], 0⟩ [150, 0] [0, 0] [0, 0]
      (0, (1:ℚ), EventKind.reveal) (by decide)⟩

theorem median_replicate (n : ℕ) (x : ℚ) (hn : n ≠ 0) :
    median (List.replicate n x) = x := by
  simp only [median, List.length_replicate,
    List.Sorted.insertionSort_eq (List.pairwise_replicate.mpr (Or.inr (le_refl x))),
    if_neg hn]
  have hget : ∀ i, i < n → (List.replicate n x).getD i 0 = x := by
    intro i hi
    simp [List.getD, List.getElem?_replicate, hi]
  have hmlt : n / 2 < n := Nat.div_lt_self (Nat.pos_of_ne_zero hn) (by norm_num)
  split
  · exact hget _ hmlt
  · rw [hget _ hmlt, hget _ (lt_of_le_of_lt (Nat.sub_le _ _) hmlt)]
    rw [qadd_eq, qdiv_eq]
    ring

theorem forall₂_mem_right {α β : Type} {R : α → β → Prop} {as : List α} {bs : List β}
    (h : List.Forall₂ R as bs) : ∀ b ∈ bs, ∃ a ∈ as, R a b := by
  induction h with
  | nil => intro b hb; simp at hb
  | cons hR htail ih =>
    intro b hb
    rcases List.mem_cons.mp hb with hb | hb
    · subst hb; exact ⟨_, List.mem_cons_self _ _, hR⟩
    · obtain ⟨a, ha, hab⟩ := ih b hb
      exact ⟨a, List.mem_cons_of_mem _ ha, hab⟩

theorem updateBaselines_forall₂ (α Δ : ℚ) {cells : List Cell} {lums : List ℚ}
    (h : List.Forall₂ (fun (c : Cell) l => l = c.baseline + Δ) cells lums) :
    List.Forall₂ (fun (c : Cell) (p : Cell × ℚ) =>
        p.1.deltaSmooth = c.deltaSmooth ∧ p.1.energyBuf = c.energyBuf ∧
        p.1.energySum = c.energySum ∧ p.2 = (1 - α) * Δ)
      cells (updateBaselines α cells lums) := by
  induction h with
  | nil => exact List.Forall₂.nil
  | cons hR htail ih =>
    rename_i c l cs ls
    simp only [updateBaselines, List.zipWith_cons_cons]
    refine List.Forall₂.cons ⟨rfl, rfl, rfl, ?_⟩ ih
    subst hR
    simp only [baselineStep, qsub_eq, qadd_eq, qmul_eq]
    ring

theorem getD_zero_of_all_zero {l : List ℚ} (h : ∀ x ∈ l, x = 0) (i : ℕ) :
    l.getD i 0 = 0 := by
  rcases hg : l[i]? with _ | x
  · simp [List.getD, hg]
  · have := h x (List.getElem?_mem hg)
    simp [List.getD, hg, this]

theorem localThrOf_pos {cfg : DetectorConfig} (hL : 0 ≤ cfg.thrLow) (hH : 0 < cfg.thrHigh)
    (fracR fracI : ℚ) : 0 < localThrOf cfg fracR fracI := by
  simp only [localThrOf]
  split
  · split
    · rw [qmax_eq, qadd_eq]
      exact lt_of_lt_of_le (by linarith) (le_max_left _ _)
    · exact hH
  · exact hH

theorem energyThr_ge_one (cfg : DetectorConfig) : 1 ≤ energyThr cfg := by
  unfold energyThr
  rw [qmax_eq]
  exact le_max_left 1 _

theorem cellTrigger_no_fire {cfg : DetectorConfig} {phase : Phase} {c : Cell}
    {fracR fracI : ℚ} (hL : 0 ≤ cfg.thrLow) (hH : 0 < cfg.thrHigh)
    (hds : c.deltaSmooth = 0) (hsum : c.energySum = 0) :
    (cellTrigger cfg phase (energyThr cfg) c fracR fracI).2 = none := by
  have hlt : ¬(localThrOf cfg fracR fracI ≤ (0:ℚ)) :=
    not_le.mpr (localThrOf_pos hL hH fracR fracI)
  have het : ¬(energyThr cfg ≤ (0:ℚ)) :=
    not_le.mpr (lt_of_lt_of_le one_pos (energyThr_ge_one cfg))
  simp only [cellTrigger]
  repeat' split
  all_goals try rfl
  all_goals exfalso
  all_goals simp only [Bool.and_eq_true, Bool.or_eq_true, decide_eq_true_eq, hds, hsum,
    eq_false hlt, eq_false het, and_false, false_and, or_false, false_or, and_true,
    true_and, or_self] at *

theorem cellTrigger_deltaSmooth (cfg : DetectorConfig) (phase : Phase) (eThr : ℚ)
    (c : Cell) (fracR fracI : ℚ) :
    (cellTrigger cfg phase eThr c fracR fracI).1.deltaSmooth = c.deltaSmooth := by
  simp only [cellTrigger]
  repeat' split
  all_goals rfl

theorem triggerAll_map_deltaSmooth (cfg : DetectorConfig) (phase : Phase) (eThr : ℚ) :
    ∀ (cells : List Cell) (fracs : List (ℚ × ℚ)) (i : ℕ),
      (triggerAll cfg phase eThr cells fracs i).1.map (·.deltaSmooth)
        = cells.map (·.deltaSmooth) := by
  intro cells
  induction cells with
  | nil => intro fracs i; cases fracs <;> rfl
  | cons c cs ih =>
    intro fracs i
    cases fracs with
    | nil => rfl
    | cons f fs =>
      simp only [triggerAll, List.map_cons]
      rw [cellTrigger_deltaSmooth, ih]

theorem triggerAll_no_fire (cfg : DetectorConfig) (phase : Phase) (eThr : ℚ) :
    ∀ (cells : List Cell) (fracs : List (ℚ × ℚ)) (i : ℕ),
      (∀ c ∈ cells, ∀ fr fi, (cellTrigger cfg phase eThr c fr fi).2 = none) →
      (triggerAll cfg phase eThr cells fracs i).2 = [] := by
  intro cells
  induction cells with
  | nil => intro fracs i _; cases fracs <;> rfl
  | cons c cs ih =>
    intro fracs i hall
    cases fracs with
    | nil => rfl
    | cons f fs =>
      simp only [triggerAll]
      rw [hall c (List.mem_cons_self _ _) f.1 f.2]
      exact ih fs (i + 1) (fun c' hc' => hall c' (List.mem_cons_of_mem _ hc'))

theorem C6_drift_rejection (cfg : DetectorConfig) (phase : Phase) (idx0 : ℕ) (Δ : ℚ)
    (cells : List Cell) (lums fracR fracI : List ℚ)
    (hthrL : 0 ≤ cfg.thrLow) (hthrH : 0 < cfg.thrHigh)
    (hsteady : ∀ c ∈ cells, c.deltaSmooth = 0 ∧ c.energySum = 0 ∧ ∀ x ∈ c.energyBuf, x = 0)
    (hlums : List.Forall₂ (fun (c : Cell) l => l = c.baseline + Δ) cells lums) :
    correctedDeltas (clamp cfg.emaAlpha (mkRat 1 100) (mkRat 99 100)) cells lums
        = List.replicate cells.length 0 ∧
    (detTick cfg phase ⟨cells, idx0⟩ lums fracR fracI).1.cells.map (·.deltaSmooth)
        = List.replicate cells.length 0 ∧
    (detTick cfg phase ⟨cells, idx0⟩ lums fracR fracI).2 = [] := by
  have h2 := updateBaselines_forall₂ (clamp cfg.emaAlpha (mkRat 1 100) (mkRat 99 100)) Δ hlums
  have hlen2 : (updateBaselines (clamp cfg.emaAlpha (mkRat 1 100) (mkRat 99 100)) cells
      lums).length = cells.length := h2.length_eq.symm
  have hmemP : ∀ p ∈ updateBaselines (clamp cfg.emaAlpha (mkRat 1 100) (mkRat 99 100)) cells
      lums, p.1.deltaSmooth = 0 ∧ (∀ x ∈ p.1.energyBuf, x = 0) ∧ p.1.energySum = 0 ∧
      p.2 = (1 - clamp cfg.emaAlpha (mkRat 1 100) (mkRat 99 100)) * Δ := by
    intro p hp
    obtain ⟨c, hc, hcp⟩ := forall₂_mem_right h2 p hp
    obtain ⟨hds0, hsum0, hbuf0⟩ := hsteady c hc
    exact ⟨hcp.1.trans hds0, by rw [hcp.2.1]; exact hbuf0, hcp.2.2.1.trans hsum0, hcp.2.2.2⟩
  have hraw : rawDeltas (clamp cfg.emaAlpha (mkRat 1 100) (mkRat 99 100)) cells lums
      = List.replicate cells.length ((1 - clamp cfg.emaAlpha (mkRat 1 100) (mkRat 99 100)) * Δ) := by
    have hall : ∀ b ∈ rawDeltas (clamp cfg.emaAlpha (mkRat 1 100) (mkRat 99 100)) cells lums,
        b = (1 - clamp cfg.emaAlpha (mkRat 1 100) (mkRat 99 100)) * Δ := by
      intro b hb
      obtain ⟨p, hp, hpb⟩ := List.mem_map.mp hb
      rw [← hpb]
      exact (hmemP p hp).2.2.2
    have hl : (rawDeltas (clamp cfg.emaAlpha (mkRat 1 100) (mkRat 99 100)) cells lums).length
        = cells.length := by
      simp [rawDeltas, hlen2]
    rw [← hl]
    exact List.eq_replicate_of_mem hall
  have hcells2 : ∀ c2 ∈ smoothCells (clamp cfg.emaAlpha (mkRat 1 100) (mkRat 99 100)) cells lums,
      c2.deltaSmooth = 0 ∧ c2.energySum = 0 ∧ ∀ x ∈ c2.energyBuf, x = 0 := by
    intro c2 hc2
    simp only [smoothCells] at hc2
    obtain ⟨p, hp, rfl⟩ := List.mem_map.mp hc2
    obtain ⟨hpds, hpbuf, hpsum, hp2⟩ := hmemP p hp
    have hne : cells.length ≠ 0 := by
      have hpos := List.length_pos_of_mem hp
      omega
    have hmed : median ((updateBaselines (clamp cfg.emaAlpha (mkRat 1 100) (mkRat 99 100)) cells
        lums).map (·.2)) = (1 - clamp cfg.emaAlpha (mkRat 1 100) (mkRat 99 100)) * Δ := by
      show median (rawDeltas (clamp cfg.emaAlpha (mkRat 1 100) (mkRat 99 100)) cells lums) = _
      rw [hraw, median_replicate _ _ hne]
    refine ⟨?_, hpsum, hpbuf⟩
    simp only [hmed, hpds, hp2, qadd_eq, qmul_eq, qsub_eq]
    ring
  have hcells3 : ∀ c3 ∈ (smoothCells (clamp cfg.emaAlpha (mkRat 1 100) (mkRat 99 100)) cells
      lums).map (energyStep cfg idx0), c3.deltaSmooth = 0 ∧ c3.energySum = 0 := by
    intro c3 hc3
    obtain ⟨c2, hc2, rfl⟩ := List.mem_map.mp hc3
    obtain ⟨h1, hsum2, hbuf2⟩ := hcells2 c2 hc2
    refine ⟨h1, ?_⟩
    simp only [energyStep]
    rw [getD_zero_of_all_zero hbuf2, h1, hsum2]
    simp only [qadd_eq, qsub_eq, qmax_eq]
    rw [max_eq_left (by linarith : (0:ℚ) - cfg.thrLow ≤ 0)]
    ring
  refine ⟨?_, ?_, ?_⟩
  · simp only [correctedDeltas]
    rw [hraw]
    rcases Nat.eq_zero_or_pos cells.length with h0 | h0
    · rw [h0]
      rfl
    · rw [median_replicate _ _ (Nat.pos_iff_ne_zero.mp h0), List.map_replicate]
      have : qsub ((1 - clamp cfg.emaAlpha (mkRat 1 100) (mkRat 99 100)) * Δ)
          ((1 - clamp cfg.emaAlpha (mkRat 1 100) (mkRat 99 100)) * Δ) = 0 := by
        rw [qsub_eq]; ring
      rw [this]
  · simp only [detTick]
    rw [triggerAll_map_deltaSmooth, List.map_map]
    have hcomp : ((fun c : Cell => c.deltaSmooth) ∘ energyStep cfg idx0)
        = (fun c : Cell => c.deltaSmooth) := funext fun c => rfl
    rw [hcomp]
    have hl : ((smoothCells (clamp cfg.emaAlpha (mkRat 1 100) (mkRat 99 100)) cells
        lums).map (fun c : Cell => c.deltaSmooth)).length = cells.length := by
      simp [smoothCells, hlen2]
    rw [← hl]
    apply List.eq_replicate_of_mem
    intro b hb
    obtain ⟨c2, hc2, rfl⟩ := List.mem_map.mp hb
    exact (hcells2 c2 hc2).1
  · simp only [detTick]
    apply triggerAll_no_fire
    intro c3 hc3 fr fi
    exact cellTrigger_no_fire hthrL hthrH (hcells3 c3 hc3).1 (hcells3 c3 hc3).2

theorem zipWith_qadd_getD : ∀ (a b : List ℚ) (i : ℕ), i < a.length → i < b.length →
    (List.zipWith qadd a b).getD i 0 = a.getD i 0 + b.getD i 0 := by
  intro a
  induction a with
  | nil => intro b i hi; simp at hi
  | cons x xs ih =>
    intro b i hia hib
    cases b with
    | nil => simp at hib
    | cons y ys =>
      cases i with
      | zero => simp [List.getD_cons_zero, qadd_eq]
      | succ i => simpa using ih ys i (by simpa using hia) (by simpa using hib)

theorem calibAccum_spec : ∀ (frames : List (Option (List ℚ))) (accum : List ℚ) (cnt : ℕ),
    (∀ l, some l ∈ frames → l.length = accum.length) →
    (calibAccum frames accum cnt).1.length = accum.length ∧
    (calibAccum frames accum cnt).2 = cnt + (frames.filterMap id).length ∧
    ∀ i, i < accum.length →
      (calibAccum frames accum cnt).1.getD i 0
        = accum.getD i 0 + ((frames.filterMap id).map (fun l => l.getD i 0)).sum := by
  intro frames
  induction frames with
  | nil =>
    intro accum cnt _
    refine ⟨rfl, by simp [calibAccum], ?_⟩
    intro i _
    simp [calibAccum]
  | cons f fs ih =>
    intro accum cnt hlen
    cases f with
    | none =>
      obtain ⟨ih1, ih2, ih3⟩ := ih accum cnt (fun l hl => hlen l (List.mem_cons_of_mem _ hl))
      refine ⟨ih1, ?_, ?_⟩
      · simpa [calibAccum, List.filterMap_cons] using ih2
      · intro i hi
        simpa [calibAccum, List.filterMap_cons] using ih3 i hi
    | some l =>
      have hl : l.length = accum.length := hlen l (List.mem_cons_self _ _)
      have hzlen : (List.zipWith qadd accum l).length = accum.length := by
        simp [List.length_zipWith, hl]
      obtain ⟨ih1, ih2, ih3⟩ := ih (List.zipWith qadd accum l) (cnt + 1)
        (fun l' hl' => by rw [hzlen]; exact hlen l' (List.mem_cons_of_mem _ hl'))
      refine ⟨?_, ?_, ?_⟩
      · simpa [calibAccum, hzlen] using ih1
      · simp only [calibAccum, List.filterMap_cons, id]
        rw [ih2]
        simp only [List.length_cons]
        omega
      · intro i hi
        have h3 := ih3 i (by rw [hzlen]; exact hi)
        simp only [calibAccum, List.filterMap_cons, id]
        rw [h3, zipWith_qadd_getD accum l i hi (by rw [hl]; exact hi)]
        simp only [List.map_cons, List.sum_cons]
        ring

theorem getD_map_cell (f : ℚ → Cell) (l : List ℚ) (i : ℕ) (h : i < l.length) (d : Cell) :
    (l.map f).getD i d = f (l.getD i 0) := by
  have hg : l[i]? = some l[i] := List.getElem?_eq_getElem h
  simp [List.getD, List.getElem?_map, hg]

theorem natIfZero_eq_max (c : ℕ) : (if c = 0 then 1 else c) = max 1 c := by
  rcases Nat.eq_zero_or_pos c with h | h
  · simp [h]
  · rw [if_neg (Nat.pos_iff_ne_zero.mp h), Nat.max_eq_right h]

theorem C7_calibration (n w : ℕ) (frames : List (Option (List ℚ)))
    (hlen : ∀ l, some l ∈ frames → l.length = n) (i : ℕ) (hi : i < n) :
    ((calibrate n w frames).getD i defCell).baseline
        = ((frames.filterMap id).map (fun l => l.getD i 0)).sum
            / ((max 1 (frames.filterMap id).length : ℕ) : ℚ) ∧
    ((calibrate n w frames).getD i defCell).belowLow = true ∧
    ((calibrate n w frames).getD i defCell).hold = 0 ∧
    ((calibrate n w frames).getD i defCell).refractory = 0 ∧
    ((calibrate n w frames).getD i defCell).deltaSmooth = 0 ∧
    ((calibrate n w frames).getD i defCell).energySum = 0 ∧
    ((calibrate n w frames).getD i defCell).energyBuf = List.replicate w 0 := by
  have hlen' : ∀ l, some l ∈ frames → l.length = (List.replicate n (0:ℚ)).length := by
    simpa using hlen
  obtain ⟨h1, h2, h3⟩ := calibAccum_spec frames (List.replicate n 0) 0 hlen'
  rw [List.length_replicate] at h1
  have hi1 : i < (calibAccum frames (List.replicate n 0) 0).1.length := by rw [h1]; exact hi
  have hgd : (calibAccum frames (List.replicate n 0) 0).1.getD i 0
      = ((frames.filterMap id).map (fun l => l.getD i 0)).sum := by
    have := h3 i (by simpa using hi)
    have hrep : (List.replicate n (0:ℚ)).getD i 0 = 0 := by
      simp [List.getD, List.getElem?_replicate, hi]
    rwa [hrep, zero_add] at this
  have havg : (if (calibAccum frames (List.replicate n 0) 0).2 = 0 then 1
      else (calibAccum frames (List.replicate n 0) 0).2)
      = max 1 (frames.filterMap id).length := by
    rw [natIfZero_eq_max, h2, Nat.zero_add]
  simp only [calibrate]
  rw [getD_map_cell _ _ i hi1]
  refine ⟨?_, rfl, rfl, rfl, rfl, rfl, rfl⟩
  simp only [hgd, havg, qdiv_eq, qn_eq]

theorem C6_witness :
    correctedDeltas (clamp defaultConfig.emaAlpha (mkRat 1 100) (mkRat 99 100))
        [c6cellA, c6cellB] [8, 12] = List.replicate 2 0 ∧
    (detTick defaultConfig Phase.armed ⟨[c6cellA, c6cellB], 0⟩ [8, 12] [0, 0]
        [0, 0]).1.cells.map (·.deltaSmooth) = List.replicate 2 0 ∧
    (detTick defaultConfig Phase.armed ⟨[c6cellA, c6cellB], 0⟩ [8, 12] [0, 0] [0, 0]).2 = [] :=
  C6_drift_rejection defaultConfig Phase.armed 0 3 [c6cellA, c6cellB] [8, 12] [0, 0] [0, 0]
    (by decide) (by decide) (by decide)
    (List.Forall₂.cons (by norm_num [c6cellA, cellZero])
      (List.Forall₂.cons (by norm_num [c6cellB, cellZero]) List.Forall₂.nil))

theorem C7_witness :
    ((calibrate 2 5 frames7).getD 0 defCell).baseline
        = ((frames7.filterMap id).map (fun l => l.getD 0 0)).sum
            / ((max 1 (frames7.filterMap id).length : ℕ) : ℚ) ∧
    ((calibrate 2 5 frames7).getD 0 defCell).belowLow = true ∧
    ((calibrate 2 5 frames7).getD 0 defCell).hold = 0 ∧
    ((calibrate 2 5 frames7).getD 0 defCell).refractory = 0 ∧
    ((calibrate 2 5 frames7).getD 0 defCell).deltaSmooth = 0 ∧
    ((calibrate 2 5 frames7).getD 0 defCell).energySum = 0 ∧
    ((calibrate 2 5 frames7).getD 0 defCell).energyBuf = List.replicate 5 0 :=
  C7_calibration 2 5 frames7
    (by
      intro l h
      simp only [frames7, List.mem_cons, List.not_mem_nil, or_false] at h
      rcases h with h | h | h | h <;>
        first
          | (injection h with h2; subst h2; rfl)
          | exact Option.noConfusion h)
    0 (by norm_num)

/-- C8: for every ROI, grid shape and padding, `sampleGridLuminance` on a
frame with no defined pixel dimensions (`videoWidth` or `videoHeight` zero
or undefined) returns exactly `rows*cols` zeros; the function is total, so
no error is raised. -/
theorem C8_zero_frame (frame : Frame) (roi : Rect) (rows cols : ℕ) (paddingPct : ℚ)
    (h : frame.videoWidth.getD 0 = 0 ∨ frame.videoHeight.getD 0 = 0) :
    sampleGridLuminance frame roi rows cols paddingPct = List.replicate (rows * cols) 0 := by
  simp only [sampleGridLuminance]
  rw [if_pos h]

/-- Witness for `C8_zero_frame`: an undefined-width frame on a 2×3 grid. -/
theorem C8_witness :
    (frameNoDims.videoWidth.getD 0 = 0 ∨ frameNoDims.videoHeight.getD 0 = 0) ∧
    sampleGridLuminance frameNoDims roiDefault 2 3 16 = List.replicate 6 0 :=
  ⟨Or.inl rfl, C8_zero_frame frameNoDims roiDefault 2 3 16 (Or.inl rfl)⟩

theorem foldl_preserve {α β : Type} (P : β → Prop) (f : β → α → β)
    (hf : ∀ b a, P b → P (f b a)) : ∀ (l : List α) (b : β), P b → P (l.foldl f b) := by
  intro l
  induction l with
  | nil => intro b hb; exact hb
  | cons x xs ih => intro b hb; exact ih _ (hf b x hb)

theorem cellScanColor_le (data : ℤ → ℚ) (width : ℤ) (opts : ColorOpts) (tR tI : ℚ)
    (ys xs : List ℤ) :
    (cellScanColor data width opts tR tI ys xs).2.1 ≤ (cellScanColor data width opts tR tI ys xs).1 ∧
    (cellScanColor data width opts tR tI ys xs).2.2 ≤ (cellScanColor data width opts tR tI ys xs).1 := by
  have hpt : ∀ (acc : ℕ × ℕ × ℕ) (y x : ℤ),
      (acc.2.1 ≤ acc.1 ∧ acc.2.2 ≤ acc.1) →
      ((colorPointStep data width opts tR tI acc y x).2.1
          ≤ (colorPointStep data width opts tR tI acc y x).1 ∧
       (colorPointStep data width opts tR tI acc y x).2.2
          ≤ (colorPointStep data width opts tR tI acc y x).1) := by
    intro acc y x hacc
    simp only [colorPointStep]
    constructor
    · split
      · exact Nat.succ_le_succ hacc.1
      · exact Nat.le_succ_of_le hacc.1
    · split
      · exact Nat.succ_le_succ hacc.2
      · exact Nat.le_succ_of_le hacc.2
  exact foldl_preserve (fun acc => acc.2.1 ≤ acc.1 ∧ acc.2.2 ≤ acc.1) _
    (fun acc y hacc => foldl_preserve _ _ (fun acc2 x h2 => hpt acc2 y x h2) xs acc hacc)
    ys (0, 0, 0) ⟨le_refl 0, le_refl 0⟩

theorem frac_bounds {hit cnt : ℕ} (h : hit ≤ cnt) :
    0 ≤ qdiv (qn hit) (qn (max 1 cnt)) ∧ qdiv (qn hit) (qn (max 1 cnt)) ≤ 1 := by
  rw [qdiv_eq, qn_eq, qn_eq]
  have hpos : (0:ℚ) < ((max 1 cnt : ℕ) : ℚ) := by
    have : (1:ℕ) ≤ max 1 cnt := le_max_left 1 cnt
    exact_mod_cast lt_of_lt_of_le Nat.zero_lt_one this
  constructor
  · exact div_nonneg (by exact_mod_cast Nat.zero_le hit) (le_of_lt hpos)
  · rw [div_le_one hpos]
    exact_mod_cast le_trans h (le_max_right 1 cnt)

/-- C10: every entry of the `revealFrac` / `inputFrac` arrays returned by
`sampleGridColorFractions` lies in `[0, 1]`, for every frame, ROI, grid
shape, padding and color options: each hit count is at most the sample
count, and the divisor is guarded by `max(1, cnt)`, so an empty cell
sub-rectangle yields `0` rather than a division by zero. -/
theorem C10_fraction_bounds (frame : Frame) (roi : Rect) (rows cols : ℕ)
    (paddingPct : ℚ) (opts : ColorOpts) (q : ℚ)
    (h : q ∈ (sampleGridColorFractions frame roi rows cols paddingPct opts).1 ∨
         q ∈ (sampleGridColorFractions frame roi rows cols paddingPct opts).2) :
    0 ≤ q ∧ q ≤ 1 := by
  simp only [sampleGridColorFractions] at h
  split at h
  · rcases h with h | h <;>
    · rw [List.eq_of_mem_replicate h]
      norm_num
  · rcases h with h | h
    · obtain ⟨pr, hpr, rfl⟩ := List.mem_map.mp h
      obtain ⟨L, hL, hprL⟩ := List.mem_flatten.mp hpr
      obtain ⟨rI, hrI, rfl⟩ := List.mem_map.mp hL
      obtain ⟨cI, hcI, rfl⟩ := List.mem_map.mp hprL
      exact frac_bounds (cellScanColor_le _ _ _ _ _ _ _).1
    · obtain ⟨pr, hpr, rfl⟩ := List.mem_map.mp h
      obtain ⟨L, hL, hprL⟩ := List.mem_flatten.mp hpr
      obtain ⟨rI, hrI, rfl⟩ := List.mem_map.mp hL
      obtain ⟨cI, hcI, rfl⟩ := List.mem_map.mp hprL
      exact frac_bounds (cellScanColor_le _ _ _ _ _ _ _).2

/-- Witness for `C10_fraction_bounds`: the first reveal fraction of the
no-dimensions frame (a zero entry). -/
theorem C10_witness :
    ((0:ℚ) ∈ (sampleGridColorFractions frameNoDims roiDefault 1 1 16 copts0).1 ∨
     (0:ℚ) ∈ (sampleGridColorFractions frameNoDims roiDefault 1 1 16 copts0).2) ∧
    (0 ≤ (0:ℚ) ∧ (0:ℚ) ≤ 1) :=
  ⟨Or.inl (by decide),
   C10_fraction_bounds frameNoDims roiDefault 1 1 16 copts0 0 (Or.inl (by decide))⟩

end Zen
